import Mathlib

/-!
Verification of the particle simulation core of `cv-hand-boids`
(`src/particle.ts`).

Shallow embedding conventions:
* JavaScript `number` is modelled by `ℝ` (the spec treats the physics as
  exact real arithmetic; NaN/Infinity do not arise under the guards the
  code itself installs, which is exactly what claim C9 checks).  The
  transcendental functions `Math.cos`, `Math.sin`, `Math.sqrt`,
  `Math.atan2` become `Real.cos`, `Real.sin`, `Real.sqrt` and
  `Complex.arg` (for `atan2`), so the development is `noncomputable`;
  concrete witnesses are evaluated with `simp` / `norm_num`.
* JavaScript `%` is a truncated remainder (the result carries the sign of
  the dividend); it is modelled by `jsMod` below.
* `x ?? null` on optional update arguments is modelled by passing
  `Option ℝ` directly.
* Mutation of `this` becomes a function returning the new record.
  `Array.prototype.forEach` loops with in-place mutation become folds.
* The neighbour filter `p !== this` compares object identity; in the
  list model the caller removes the element `this` occupies (by index)
  before calling `updateBoidBehavior`, which is the same set of
  candidate neighbours because every pool member is a distinct object.
-/

noncomputable section

open Real

/-- JavaScript's `%` operator on real operands with a positive divisor:
`a % b = a - b * trunc (a / b)`, truncation being floor for a
non-negative dividend and ceiling for a negative one. -/
def jsMod (a b : ℝ) : ℝ :=
  if 0 ≤ a then a - b * (⌊a / b⌋ : ℝ) else a - b * (⌈a / b⌉ : ℝ)

/-- The angle-difference normalisation expression
`((d + Math.PI) % (2 * Math.PI)) - Math.PI` that appears verbatim in
`Particle.update` (line 214) and `Particle.updateBoidBehavior`
(lines 189-190) of `src/particle.ts`. -/
def normAngle (d : ℝ) : ℝ :=
  jsMod (d + Real.pi) (2 * Real.pi) - Real.pi

/-- `Math.atan2(y, x)`: the argument of the complex number `x + y*i`,
with `atan2 0 0 = 0` matching JavaScript. -/
def atan2 (y x : ℝ) : ℝ :=
  Complex.arg ⟨x, y⟩

/-- `ParticleRenderer` from `src/particle.ts` (lines 45-58): an
ephemeral fading dot, created with `(x, y, radius, opacity, color)`. -/
structure ParticleRenderer where
  opacity : ℝ
  radius : ℝ
  x : ℝ
  y : ℝ
  color : String

/-- `ParticleRenderer.update` (lines 60-65): decrement opacity by 0.02
and radius by 0.1, both floored at 0, returning the new renderer
together with the boolean `opacity > 0 && radius > 0`. -/
def ParticleRenderer.update (r : ParticleRenderer) : ParticleRenderer × Bool :=
  let op := max (r.opacity - 0.02) 0
  let rad := max (r.radius - 0.1) 0
  ({ r with opacity := op, radius := rad }, decide (0 < op) && decide (0 < rad))

/-- The state component of one renderer tick. -/
def rNext (r : ParticleRenderer) : ParticleRenderer :=
  (ParticleRenderer.update r).1

/-- `n` renderer ticks. -/
def rIter (n : ℕ) (r : ParticleRenderer) : ParticleRenderer :=
  rNext^[n] r

/-- The concrete renderer of the spec scenario: radius 3, opacity 0.4. -/
def scenarioRenderer : ParticleRenderer :=
  { opacity := 0.4, radius := 3, x := 0, y := 0, color := "c" }

/-- The in-place backward filtering loop of `Particle.update`
(lines 243-245): every renderer is ticked once, the ones whose `update`
returned `false` are spliced out, survivors keep their relative order.
Processing the array from the last index down with single-element
`splice` is the fold below. -/
def ageRenderers (rs : List ParticleRenderer) : List ParticleRenderer :=
  rs.foldr
    (fun r acc =>
      let u := ParticleRenderer.update r
      if u.2 then u.1 :: acc else acc)
    []

/-- Decay profile, counted from the newest renderer: the `k`-th renderer
from the newest end has opacity at most `0.4 - 0.02 * k`. -/
def profAux : ℕ → List ParticleRenderer → Prop
  | _, [] => True
  | k, r :: rest => r.opacity ≤ 0.4 - 0.02 * k ∧ profAux (k + 1) rest

/-- Invariant on a particle's renderer list (stored oldest-first, as in
the source): the reversed list satisfies the decay profile.  It holds
for the empty list a particle is constructed with, and `Particle.update`
preserves it. -/
def RenderInv (rs : List ParticleRenderer) : Prop :=
  profAux 0 rs.reverse

/-- `Particle` from `src/particle.ts` (lines 80-120): position, scalar
speed, heading, optional target, motion coefficients, drawing data and
the trail-renderer list. -/
structure Particle where
  x : ℝ
  y : ℝ
  speed : ℝ
  acceleration : ℝ
  rotation : ℝ
  targetX : Option ℝ
  targetY : Option ℝ
  maxSpeed : ℝ
  minSpeed : ℝ
  friction : ℝ
  radius : ℝ
  color : String
  renderers : List ParticleRenderer

/-- The `Particle` constructor (lines 95-120).  `Math.random()` is
modelled by the extra parameter `rand` (any value in `[0, 1)` the
runtime could produce): the initial speed is `rand * 2 - 1` and the
initial heading is `atan2(targetY - y, targetX - x)`. -/
def Particle.construct (x y tx ty : ℝ) (color : String)
    (acceleration maxSpeed minSpeed friction radius rand : ℝ) : Particle :=
  { x := x
    y := y
    speed := rand * 2 - 1
    acceleration := acceleration
    rotation := atan2 (ty - y) (tx - x)
    targetX := some tx
    targetY := some ty
    maxSpeed := maxSpeed
    minSpeed := minSpeed
    friction := friction
    radius := radius
    color := color
    renderers := [] }

/-- One neighbour's contribution to the separation force
(lines 152-160): inverse-square repulsion, applied only when the
neighbour is strictly closer than half the neighbourhood radius and at
strictly positive distance (the division-by-zero guard). -/
def sepTerm (p q : Particle) (neighborhoodRadius : ℝ) : ℝ × ℝ :=
  let dx := p.x - q.x
  let dy := p.y - q.y
  let distance := Real.sqrt (dx * dx + dy * dy)
  if 0 < distance ∧ distance < neighborhoodRadius / 2 then
    (dx / (distance * distance), dy / (distance * distance))
  else (0, 0)

/-- `Particle.updateBoidBehavior` (lines 122-197).  `others` is the pool
minus the particle itself (the source filters the full pool by object
identity `p !== this`; the caller of this model removes the self entry
by index).  Cohesion pulls to the neighbour centroid, separation sums
`sepTerm`, alignment pulls toward the neighbours' average velocity; the
blended force steers rotation by 2% of the normalised angle difference
and adds `0.1 * |force|` to the speed.  With no neighbour strictly
inside the neighbourhood radius the particle is returned unchanged. -/
def Particle.updateBoidBehavior (p : Particle) (others : List Particle)
    (neighborhoodRadius cohesionWeight separationWeight alignmentWeight : ℝ) :
    Particle :=
  let neighbors := others.filter (fun q =>
    decide (Real.sqrt ((q.x - p.x) * (q.x - p.x) + (q.y - p.y) * (q.y - p.y)) <
      neighborhoodRadius))
  if neighbors.length = 0 then p
  else
    let n : ℝ := neighbors.length
    let avgX := (neighbors.map (fun q => q.x)).sum / n
    let avgY := (neighbors.map (fun q => q.y)).sum / n
    let cohesionForceX := avgX - p.x
    let cohesionForceY := avgY - p.y
    let sepForceX := (neighbors.map (fun q => (sepTerm p q neighborhoodRadius).1)).sum
    let sepForceY := (neighbors.map (fun q => (sepTerm p q neighborhoodRadius).2)).sum
    let avgVelocityX := (neighbors.map (fun q => Real.cos q.rotation * q.speed)).sum / n
    let avgVelocityY := (neighbors.map (fun q => Real.sin q.rotation * q.speed)).sum / n
    let alignmentForceX := avgVelocityX - Real.cos p.rotation * p.speed
    let alignmentForceY := avgVelocityY - Real.sin p.rotation * p.speed
    let totalForceX := cohesionForceX * cohesionWeight +
      sepForceX * separationWeight + alignmentForceX * alignmentWeight
    let totalForceY := cohesionForceY * cohesionWeight +
      sepForceY * separationWeight + alignmentForceY * alignmentWeight
    let targetRotation := atan2 totalForceY totalForceX
    let adjustedRotationDelta := normAngle (targetRotation - p.rotation)
    let forceMagnitude := Real.sqrt (totalForceX ^ 2 + totalForceY ^ 2)
    { p with rotation := p.rotation + adjustedRotationDelta * 0.02,
             speed := p.speed + forceMagnitude * 0.1 }

/-- The target-seeking steering step of `Particle.update`
(lines 202-224): returns the rotation and speed after the optional
steering block.  When no target is set the pair is unchanged. -/
def Particle.steer (p : Particle) : ℝ × ℝ :=
  match p.targetX, p.targetY with
  | some tx, some ty =>
    let dx := tx - p.x
    let dy := ty - p.y
    let distance := Real.sqrt (dx * dx + dy * dy)
    let targetRotation := atan2 dy dx
    let angleDifference := normAngle (targetRotation - p.rotation)
    let desiredSpeed := distance * p.acceleration
    (p.rotation + angleDifference * 0.05,
      p.speed + (desiredSpeed - p.speed) * p.acceleration)
  | _, _ => (p.rotation, p.speed)

/-- Line 227: friction then clamping into `[minSpeed, maxSpeed]`. -/
def Particle.speedAfter (p : Particle) : ℝ :=
  min p.maxSpeed (max p.minSpeed ((p.steer).2 * p.friction))

/-- Line 230: the x position after integration. -/
def Particle.xMoved (p : Particle) : ℝ :=
  p.x + p.speedAfter * Real.cos (p.steer).1

/-- Line 231: the y position after integration. -/
def Particle.yMoved (p : Particle) : ℝ :=
  p.y + p.speedAfter * Real.sin (p.steer).1

/-- Lines 234-237: bounce off the left/right canvas borders.  If the
particle's circular extent crosses an x-edge the heading is mirrored
across the vertical axis (`rotation := π - rotation`) and the x position
is clamped into `[radius, W - radius]`; otherwise both are unchanged. -/
def bounceX (rot x radius W : ℝ) : ℝ × ℝ :=
  if x - radius < 0 ∨ x + radius > W then
    (Real.pi - rot, max radius (min x (W - radius)))
  else (rot, x)

/-- Lines 238-241: bounce off the top/bottom canvas borders, mirroring
the heading across the horizontal axis (`rotation := -rotation`). -/
def bounceY (rot y radius H : ℝ) : ℝ × ℝ :=
  if y - radius < 0 ∨ y + radius > H then
    (-rot, max radius (min y (H - radius)))
  else (rot, y)

/-- `Particle.update` (lines 200-249): steering, friction + clamp,
integration, boundary bounce, then trail aging and emission of one
fresh renderer at the new position with opacity 0.4. -/
def Particle.update (p : Particle) (W H : ℝ) : Particle :=
  let b1 := bounceX (p.steer).1 p.xMoved p.radius W
  let b2 := bounceY b1.1 p.yMoved p.radius H
  { p with
    rotation := b2.1
    speed := p.speedAfter
    x := b1.2
    y := b2.2
    renderers := ageRenderers p.renderers ++
      [⟨0.4, p.radius, b1.2, b2.2, p.color⟩] }

/-- A concrete particle used by several witnesses. -/
def pEx : Particle :=
  { x := 50, y := 50, speed := 1, acceleration := 0.5, rotation := 0,
    targetX := none, targetY := none, maxSpeed := 2, minSpeed := 1,
    friction := 0.99, radius := 3, color := "c", renderers := [] }

/-- The reachable particle refuting C8: constructed at (1, 50) aiming at
(1, 40) (so heading `-π/2`), with the default coefficients and the
`Math.random()` draw 1/2. -/
def pC8 : Particle :=
  Particle.construct 1 50 1 40 "c" 0.5 2 1 0.99 3 (1/2)

/-- The velocity-component `Particle` variant of `src/particle.ts`
(lines 430-521): independent `vx`/`vy` instead of heading and scalar
speed. -/
structure VParticle where
  x : ℝ
  y : ℝ
  vx : ℝ
  vy : ℝ
  targetX : Option ℝ
  targetY : Option ℝ
  acceleration : ℝ
  maxSpeed : ℝ
  friction : ℝ
  radius : ℝ

/-- Lines 467-468: the x displacement to the target, 0 when unset. -/
def VParticle.targetDx (p : VParticle) : ℝ :=
  match p.targetX with
  | some tx => tx - p.x
  | none => 0

/-- Lines 467-468: the y displacement to the target, 0 when unset. -/
def VParticle.targetDy (p : VParticle) : ℝ :=
  match p.targetY with
  | some ty => ty - p.y
  | none => 0

/-- Line 471: the distance to the target. -/
def VParticle.vdist (p : VParticle) : ℝ :=
  Real.sqrt (p.targetDx * p.targetDx + p.targetDy * p.targetDy)

/-- Lines 472-473: the normalised direction to the target, guarded by
the `(distance || 1)` idiom — a zero (falsy) distance makes the divisor
1 instead. -/
def VParticle.vdir (p : VParticle) : ℝ × ℝ :=
  (p.targetDx / (if p.vdist = 0 then 1 else p.vdist),
    p.targetDy / (if p.vdist = 0 then 1 else p.vdist))

/-- `update` of the velocity-component variant (lines 465-512).
`Math.random()` in the noise branch is modelled by the parameters
`r1 r2`. -/
def VParticle.update (p : VParticle) (W H r1 r2 : ℝ) : VParticle :=
  let vx1 := p.vx + (p.vdir).1 * p.acceleration
  let vy1 := p.vy + (p.vdir).2 * p.acceleration
  let vx2 := if p.vdist < 20 then vx1 - p.targetDx * p.acceleration * 0.01
    else vx1 + p.targetDx * p.acceleration * (r1 - 0.3) * 0.1
  let vy2 := if p.vdist < 20 then vy1 - p.targetDy * p.acceleration * 0.01
    else vy1 + p.targetDy * p.acceleration * (r2 - 0.3) * 0.1
  let vx3 := vx2 * p.friction
  let vy3 := vy2 * p.friction
  let speed := Real.sqrt (vx3 * vx3 + vy3 * vy3)
  let vx4 := if speed > p.maxSpeed then vx3 / speed * p.maxSpeed else vx3
  let vy4 := if speed > p.maxSpeed then vy3 / speed * p.maxSpeed else vy3
  let x1 := p.x + vx4
  let y1 := p.y + vy4
  let vx5 := if x1 - p.radius < 0 ∨ x1 + p.radius > W then -vx4 else vx4
  let x2 := if x1 - p.radius < 0 ∨ x1 + p.radius > W then
    max p.radius (min x1 (W - p.radius)) else x1
  let vy5 := if y1 - p.radius < 0 ∨ y1 + p.radius > H then -vy4 else vy4
  let y2 := if y1 - p.radius < 0 ∨ y1 + p.radius > H then
    max p.radius (min y1 (H - p.radius)) else y1
  { p with x := x2, y := y2, vx := vx5, vy := vy5 }

/-- A concrete particle sitting exactly on its target. -/
def pOnTarget : Particle :=
  { pEx with targetX := some 50, targetY := some 50 }

/-- A concrete velocity-component particle sitting on its target. -/
def vEx : VParticle :=
  { x := 10, y := 20, vx := 1, vy := 1, targetX := some 10, targetY := some 20,
    acceleration := 0.5, maxSpeed := 15, friction := 0.98, radius := 1 }

/-- `ParticleSystem` (lines 272-319): a pool of particles, the shared
optional target, the shared color, and the boid parameters (fixed to
50 / 0.1 / 0.25 / 0.05 at construction in the source). -/
structure ParticleSystem where
  particles : List Particle
  targetX : Option ℝ
  targetY : Option ℝ
  color : String
  neighborhoodRadius : ℝ
  cohesionWeight : ℝ
  separationWeight : ℝ
  alignmentWeight : ℝ

/-- The `ParticleSystem` constructor (lines 283-296): `n` particles
jittered within ±10 of the target.  The three `Math.random()` draws of
particle `i` are supplied by `rnds i`. -/
def ParticleSystem.construct (tx ty : ℝ) (n : ℕ) (color : String)
    (rnds : ℕ → ℝ × ℝ × ℝ) : ParticleSystem :=
  { particles := (List.range n).map (fun i =>
      Particle.construct (tx + (rnds i).1 * 20 - 10) (ty + (rnds i).2.1 * 20 - 10)
        tx ty color 0.5 2 1 0.99 3 (rnds i).2.2)
    targetX := some tx
    targetY := some ty
    color := color
    neighborhoodRadius := 50
    cohesionWeight := 0.1
    separationWeight := 0.25
    alignmentWeight := 0.05 }

/-- The body of the `forEach` loop of `ParticleSystem.update`
(lines 300-313), acting on the pool at index `i`: set the particle's
target, run `updateBoidBehavior` against the current pool state minus
the particle itself (the source passes the whole pool and filters out
`this` by object identity), then run the physical `update`, writing the
result back in place. -/
def stepAt (W H : ℝ) (tX tY : Option ℝ) (R cW sW aW : ℝ)
    (pool : List Particle) (i : ℕ) : List Particle :=
  match pool[i]? with
  | none => pool
  | some p =>
    let p1 := { p with targetX := tX, targetY := tY }
    let p2 := p1.updateBoidBehavior (pool.eraseIdx i) R cW sW aW
    let p3 := p2.update W H
    pool.set i p3

/-- The sequential in-place pool loop of `ParticleSystem.update`: the
pool entries are processed in index order, each seeing the already
updated entries of smaller index. -/
def seqPool (W H : ℝ) (tX tY : Option ℝ) (R cW sW aW : ℝ)
    (pool : List Particle) : List Particle :=
  (List.range pool.length).foldl (stepAt W H tX tY R cW sW aW) pool

/-- Modelled from the spec: the simultaneous-update reference loop in
which every particle's flocking forces are computed against a snapshot
of the pool taken before any particle integrates ("all particles read a
consistent snapshot of neighbor positions for flocking before any
particle integrates its own new position"). -/
def snapshotPool (W H : ℝ) (tX tY : Option ℝ) (R cW sW aW : ℝ)
    (pool : List Particle) : List Particle :=
  (List.range pool.length).filterMap (fun i =>
    (pool[i]?).map (fun p =>
      (({ p with targetX := tX, targetY := tY }).updateBoidBehavior
        (pool.eraseIdx i) R cW sW aW).update W H))

/-- `ParticleSystem.update` (lines 298-314).  The assignments
`this.targetX = newTargetX ?? null` and `this.targetY = ...` happen
inside the `forEach` body, so a system with an empty pool keeps its
previous target; `newTargetX ?? null` is modelled by the callers passing
`Option ℝ` directly. -/
def ParticleSystem.update (sys : ParticleSystem) (W H : ℝ)
    (newTX newTY : Option ℝ) : ParticleSystem :=
  { sys with
    particles := seqPool W H newTX newTY sys.neighborhoodRadius
      sys.cohesionWeight sys.separationWeight sys.alignmentWeight sys.particles
    targetX := if sys.particles.isEmpty then sys.targetX else newTX
    targetY := if sys.particles.isEmpty then sys.targetY else newTY }

/-- A system whose constructor was called with zero particles. -/
def sysEmpty : ParticleSystem :=
  ParticleSystem.construct 1 2 0 "c" (fun _ => (0, 0, 0))

/-- A concrete singleton system for the C7 witness. -/
def sysOne : ParticleSystem :=
  { particles := [pEx], targetX := none, targetY := none, color := "c",
    neighborhoodRadius := 50, cohesionWeight := 0.1, separationWeight := 0.25,
    alignmentWeight := 0.05 }

/-- First particle of the C3 counterexample pool. -/
def exP0 : Particle :=
  { x := 10, y := 10, speed := 5, acceleration := 0.5, rotation := 0,
    targetX := none, targetY := none, maxSpeed := 2, minSpeed := 1,
    friction := 0.99, radius := 3, color := "c", renderers := [] }

/-- Second particle of the C3 counterexample pool: 51 units to the right
of `exP0` (just outside the neighbourhood radius 50), same heading. -/
def exP1 : Particle :=
  { exP0 with x := 61, speed := 2 }

theorem atan2_zero_zero : atan2 0 0 = 0 := by
  have h : (⟨0, 0⟩ : ℂ) = 0 := by
    apply Complex.ext <;> simp
  rw [atan2, h, Complex.arg_zero]

theorem atan2_zero_neg {x : ℝ} (hx : x < 0) : atan2 0 x = Real.pi := by
  have h : (⟨x, 0⟩ : ℂ) = (x : ℂ) := by
    apply Complex.ext <;> simp
  rw [atan2, h, Complex.arg_ofReal_of_neg hx]

theorem atan2_neg_zero {y : ℝ} (hy : y < 0) : atan2 y 0 = -(Real.pi / 2) := by
  have h : (⟨0, y⟩ : ℂ) = (-y : ℝ) * (-Complex.I) := by
    apply Complex.ext <;> simp
  rw [atan2, h, Complex.arg_real_mul _ (by linarith), Complex.arg_neg_I]

theorem atan2_mem_Ioc (y x : ℝ) : atan2 y x ∈ Set.Ioc (-Real.pi) Real.pi :=
  Complex.arg_mem_Ioc _

theorem jsMod_nonneg_range {a b : ℝ} (ha : 0 ≤ a) (hb : 0 < b) :
    0 ≤ jsMod a b ∧ jsMod a b < b := by
  rw [jsMod, if_pos ha]
  have hfrac : a - b * (⌊a / b⌋ : ℝ) = b * Int.fract (a / b) := by
    rw [Int.fract]
    field_simp
  rw [hfrac]
  constructor
  · exact mul_nonneg hb.le (Int.fract_nonneg _)
  · calc b * Int.fract (a / b) < b * 1 :=
          (mul_lt_mul_left hb).mpr (Int.fract_lt_one _)
      _ = b := mul_one b

theorem jsMod_neg_range {a b : ℝ} (ha : ¬ 0 ≤ a) (hb : 0 < b) :
    -b < jsMod a b ∧ jsMod a b ≤ 0 := by
  rw [jsMod, if_neg ha]
  have h1 : a / b ≤ (⌈a / b⌉ : ℝ) := Int.le_ceil _
  have h2 : (⌈a / b⌉ : ℝ) < a / b + 1 := Int.ceil_lt_add_one _
  constructor
  · have := (mul_lt_mul_left hb).mpr h2
    have hab : b * (a / b) = a := by field_simp
    nlinarith
  · have := (mul_le_mul_left hb).mpr h1
    have hab : b * (a / b) = a := by field_simp
    nlinarith

/-- Claim C4 (amended): over the real model of JavaScript's truncated
`%`, the expression `((d + π) % (2π)) - π` lands in `[-π, π)` whenever
`d ≥ -π`, and in `(-3π, -π]` whenever `d < -π`.  It never produces the
value `π` and it does produce `-π` (at `d = π`), so its range is not the
half-open interval `(-π, π]` stated in the claim. -/
theorem normAngle_range (d : ℝ) :
    (-Real.pi ≤ d → normAngle d ∈ Set.Ico (-Real.pi) Real.pi) ∧
    (d < -Real.pi → normAngle d ∈ Set.Ioc (-3 * Real.pi) (-Real.pi)) := by
  have hb : (0:ℝ) < 2 * Real.pi := by positivity
  constructor
  · intro hd
    have ha : 0 ≤ d + Real.pi := by linarith
    obtain ⟨h1, h2⟩ := jsMod_nonneg_range ha hb
    rw [normAngle]
    constructor <;> [linarith; linarith]
  · intro hd
    have ha : ¬ 0 ≤ d + Real.pi := by intro h; linarith
    obtain ⟨h1, h2⟩ := jsMod_neg_range ha hb
    rw [normAngle]
    constructor <;> [linarith; linarith]

/-- Witness for C4's amended theorem at `d = 0`. -/
theorem normAngle_range_witness :
    -Real.pi ≤ (0:ℝ) ∧ normAngle 0 ∈ Set.Ico (-Real.pi) Real.pi :=
  ⟨by linarith [Real.pi_pos], (normAngle_range 0).1 (by linarith [Real.pi_pos])⟩

/-- Claim C4, counterexample: at angular difference `d = -(3π/2)` the
normalisation expression returns `-(3π/2)` itself, which lies outside
`(-π, π]`, refuting the claimed range. -/
theorem normAngle_not_Ioc :
    normAngle (-(3 * Real.pi / 2)) ∉ Set.Ioc (-Real.pi) Real.pi := by
  have hpi := Real.pi_pos
  have hb : (0:ℝ) < 2 * Real.pi := by positivity
  have ha : ¬ (0 ≤ -(3 * Real.pi / 2) + Real.pi) := by
    intro h; nlinarith
  have hdiv : (-(3 * Real.pi / 2) + Real.pi) / (2 * Real.pi) = -(1/4) := by
    field_simp
    ring
  have hceil : ⌈(-(1/4) : ℝ)⌉ = 0 := by
    rw [Int.ceil_eq_zero_iff]
    constructor <;> norm_num
  have hval : normAngle (-(3 * Real.pi / 2)) = -(3 * Real.pi / 2) := by
    rw [normAngle, jsMod, if_neg ha, hdiv, hceil]
    push_cast
    ring
  rw [hval]
  intro hmem
  have := hmem.1
  nlinarith

theorem rNext_opacity (r : ParticleRenderer) :
    (rNext r).opacity = max (r.opacity - 0.02) 0 := rfl

theorem rNext_radius (r : ParticleRenderer) :
    (rNext r).radius = max (r.radius - 0.1) 0 := rfl

theorem rIter_opacity (n : ℕ) (r : ParticleRenderer) (h : 0 ≤ r.opacity) :
    (rIter n r).opacity = max (r.opacity - 0.02 * n) 0 := by
  induction n generalizing r with
  | zero => simp [rIter, max_eq_left h]
  | succ n ih =>
    rw [rIter, Function.iterate_succ_apply, ← rIter, ih _ (le_max_right _ _),
      rNext_opacity]
    rcases le_or_lt 0 (r.opacity - 0.02) with hc | hc
    · rw [max_eq_left hc]
      push_cast
      ring_nf
    · rw [max_eq_right hc.le]
      have h1 : r.opacity - 0.02 * ((n:ℝ) + 1) < 0 := by
        have : (0:ℝ) ≤ 0.02 * n := by positivity
        linarith
      push_cast
      rw [max_eq_right (by linarith), max_eq_right (by linarith)]

theorem rIter_radius (n : ℕ) (r : ParticleRenderer) (h : 0 ≤ r.radius) :
    (rIter n r).radius = max (r.radius - 0.1 * n) 0 := by
  induction n generalizing r with
  | zero => simp [rIter, max_eq_left h]
  | succ n ih =>
    rw [rIter, Function.iterate_succ_apply, ← rIter, ih _ (le_max_right _ _),
      rNext_radius]
    rcases le_or_lt 0 (r.radius - 0.1) with hc | hc
    · rw [max_eq_left hc]
      push_cast
      ring_nf
    · rw [max_eq_right hc.le]
      have h1 : r.radius - 0.1 * ((n:ℝ) + 1) < 0 := by
        have : (0:ℝ) ≤ 0.1 * n := by positivity
        linarith
      push_cast
      rw [max_eq_right (by linarith), max_eq_right (by linarith)]

theorem ageRenderers_eq_filterMap (rs : List ParticleRenderer) :
    ageRenderers rs =
      rs.filterMap (fun r =>
        let u := ParticleRenderer.update r
        if u.2 then some u.1 else none) := by
  induction rs with
  | nil => rfl
  | cons r rest ih =>
    rw [ageRenderers, List.foldr_cons, ← ageRenderers, ih, List.filterMap_cons]
    by_cases h : (ParticleRenderer.update r).2 <;> simp [h]

theorem ageRenderers_eq_map_filter (rs : List ParticleRenderer) :
    ageRenderers rs =
      (rs.map rNext).filter
        (fun r => decide (0 < r.opacity) && decide (0 < r.radius)) := by
  induction rs with
  | nil => rfl
  | cons r rest ih =>
    rw [ageRenderers, List.foldr_cons, ← ageRenderers, ih, List.map_cons,
      List.filter_cons]
    have hb : (ParticleRenderer.update r).2 =
        (decide (0 < (rNext r).opacity) && decide (0 < (rNext r).radius)) := rfl
    by_cases h : (ParticleRenderer.update r).2
    · rw [if_pos h]
      rw [hb] at h
      rw [if_pos h]
      rfl
    · rw [if_neg h]
      rw [hb] at h
      rw [if_neg h]

theorem profAux_mono {l : List ParticleRenderer} {k k' : ℕ} (hk : k ≤ k')
    (h : profAux k' l) : profAux k l := by
  induction l generalizing k k' with
  | nil => trivial
  | cons r rest ih =>
    obtain ⟨h1, h2⟩ := h
    refine ⟨le_trans h1 ?_, ih (by omega) h2⟩
    have : (k:ℝ) ≤ (k':ℝ) := by exact_mod_cast hk
    linarith

theorem profAux_step {l : List ParticleRenderer} {k : ℕ} (h : profAux k l) :
    profAux (k + 1)
      (l.filterMap (fun r =>
        let u := ParticleRenderer.update r
        if u.2 then some u.1 else none)) := by
  induction l generalizing k with
  | nil => trivial
  | cons r rest ih =>
    obtain ⟨h1, h2⟩ := h
    rw [List.filterMap_cons]
    by_cases hk : (ParticleRenderer.update r).2
    · rw [if_pos hk]
      refine ⟨?_, ih h2⟩
      have hop : (rNext r).opacity = max (r.opacity - 0.02) 0 := rfl
      have hpos : 0 < (rNext r).opacity := by
        have : decide (0 < (rNext r).opacity) = true := by
          have hb : (ParticleRenderer.update r).2 =
              (decide (0 < (rNext r).opacity) &&
                decide (0 < (rNext r).radius)) := rfl
          rw [hb] at hk
          exact (Bool.and_eq_true _ _).mp hk |>.1
        exact of_decide_eq_true this
      have hmax : (rNext r).opacity = r.opacity - 0.02 := by
        rw [hop] at hpos ⊢
        rcases max_cases (r.opacity - 0.02) (0:ℝ) with ⟨he, _⟩ | ⟨he, _⟩
        · exact he
        · rw [he] at hpos; exact absurd hpos (lt_irrefl 0)
      show (rNext r).opacity ≤ 0.4 - 0.02 * ((k + 1 : ℕ) : ℝ)
      rw [hmax]
      push_cast
      linarith
    · rw [if_neg hk]
      exact profAux_mono (by omega) (ih h2)

theorem profAux_length {l : List ParticleRenderer} {k : ℕ} (h : profAux k l)
    (hpos : ∀ r ∈ l, 0 < r.opacity) : l.length + k ≤ 20 ∨ l = [] := by
  induction l generalizing k with
  | nil => exact Or.inr rfl
  | cons r rest ih =>
    obtain ⟨h1, h2⟩ := h
    have hr : 0 < r.opacity := hpos r (List.mem_cons_self r rest)
    have hk : (k:ℝ) < 20 := by linarith
    have hk' : k < 20 := by exact_mod_cast hk
    left
    rcases ih h2 (fun q hq => hpos q (List.mem_cons_of_mem _ hq)) with hle | hnil
    · simpa using (by omega : rest.length + 1 + k ≤ 20)
    · subst hnil
      simpa using (by omega : 1 + k ≤ 20)

theorem update_bool_iff (r : ParticleRenderer) :
    (ParticleRenderer.update r).2 = true ↔
      0 < (rNext r).opacity ∧ 0 < (rNext r).radius := by
  have hb : (ParticleRenderer.update r).2 =
      (decide (0 < (rNext r).opacity) && decide (0 < (rNext r).radius)) := rfl
  rw [hb, Bool.and_eq_true, decide_eq_true_eq, decide_eq_true_eq]

/-- Claim C6: one renderer tick subtracts exactly 0.02 from opacity and
0.1 from radius (floored at 0) and reports visibility iff both stay
positive; opacity is non-increasing and first reaches 0 after
`⌈opacity / 0.02⌉` ticks; the spec scenario (radius 3, opacity 0.4) has
opacity 0.32 and radius 2.6 after 4 ticks, both 0 after 40 ticks, with
`update` then reporting not-visible. -/
theorem renderer_decay_spec (r : ParticleRenderer) (h : 0 < r.opacity) :
    (rNext r).opacity = max (r.opacity - 0.02) 0 ∧
    (rNext r).radius = max (r.radius - 0.1) 0 ∧
    ((ParticleRenderer.update r).2 = true ↔
      0 < (rNext r).opacity ∧ 0 < (rNext r).radius) ∧
    (rNext r).opacity ≤ r.opacity ∧
    (rIter (⌈r.opacity / 0.02⌉.toNat) r).opacity = 0 ∧
    (∀ m, m < ⌈r.opacity / 0.02⌉.toNat → 0 < (rIter m r).opacity) ∧
    (rIter 4 scenarioRenderer).opacity = 0.32 ∧
    (rIter 4 scenarioRenderer).radius = 2.6 ∧
    (rIter 40 scenarioRenderer).opacity = 0 ∧
    (rIter 40 scenarioRenderer).radius = 0 ∧
    (ParticleRenderer.update (rIter 40 scenarioRenderer)).2 = false := by
  have hceil_nonneg : 0 ≤ ⌈r.opacity / 0.02⌉ := by
    have : (0:ℝ) < r.opacity / 0.02 := by positivity
    exact_mod_cast (Int.le_ceil _).trans' (by positivity : (0:ℝ) ≤ r.opacity / 0.02)
  have hcast : ((⌈r.opacity / 0.02⌉.toNat : ℕ) : ℝ) = (⌈r.opacity / 0.02⌉ : ℝ) := by
    exact_mod_cast Int.toNat_of_nonneg hceil_nonneg
  have hs40op : (rIter 40 scenarioRenderer).opacity = 0 := by
    rw [rIter_opacity 40 scenarioRenderer (by norm_num [scenarioRenderer])]
    simp only [scenarioRenderer]
    norm_num
  have hs40rad : (rIter 40 scenarioRenderer).radius = 0 := by
    rw [rIter_radius 40 scenarioRenderer (by norm_num [scenarioRenderer])]
    simp only [scenarioRenderer]
    norm_num
  refine ⟨rfl, rfl, update_bool_iff r, ?_, ?_, ?_, ?_, ?_, hs40op, hs40rad, ?_⟩
  · rw [rNext_opacity]
    exact max_le (by linarith) h.le
  · rw [rIter_opacity _ _ h.le]
    have hle : r.opacity / 0.02 ≤ (⌈r.opacity / 0.02⌉ : ℝ) := Int.le_ceil _
    have hx : (0.02:ℝ) * (r.opacity / 0.02) = r.opacity := by field_simp
    have hmul := mul_le_mul_of_nonneg_left hle (by norm_num : (0:ℝ) ≤ 0.02)
    rw [hx] at hmul
    rw [hcast, max_eq_right]
    linarith
  · intro m hm
    rw [rIter_opacity _ _ h.le]
    have hm' : (m : ℤ) < ⌈r.opacity / 0.02⌉ := by omega
    have hmr : (m : ℝ) < r.opacity / 0.02 := by
      exact_mod_cast Int.lt_ceil.mp hm'
    have hx : (0.02:ℝ) * (r.opacity / 0.02) = r.opacity := by field_simp
    have hmul := mul_lt_mul_of_pos_left hmr (by norm_num : (0:ℝ) < 0.02)
    rw [hx] at hmul
    have hpos : 0 < r.opacity - 0.02 * m := by linarith
    exact lt_max_iff.mpr (Or.inl hpos)
  · rw [rIter_opacity 4 scenarioRenderer (by norm_num [scenarioRenderer])]
    simp only [scenarioRenderer]
    norm_num
  · rw [rIter_radius 4 scenarioRenderer (by norm_num [scenarioRenderer])]
    simp only [scenarioRenderer]
    norm_num
  · have hb : (ParticleRenderer.update (rIter 40 scenarioRenderer)).2 =
        (decide (0 < (rNext (rIter 40 scenarioRenderer)).opacity) &&
          decide (0 < (rNext (rIter 40 scenarioRenderer)).radius)) := rfl
    rw [hb]
    have hop0 : (rNext (rIter 40 scenarioRenderer)).opacity = 0 := by
      rw [rNext_opacity, hs40op]
      norm_num
    rw [hop0, decide_eq_false (by norm_num : ¬ (0:ℝ) < 0), Bool.false_and]

/-- Witness for C6 at the spec scenario renderer. -/
theorem renderer_decay_spec_witness :
    0 < scenarioRenderer.opacity ∧
      (rIter (⌈scenarioRenderer.opacity / 0.02⌉.toNat) scenarioRenderer).opacity = 0 :=
  ⟨by norm_num [scenarioRenderer],
    (renderer_decay_spec scenarioRenderer
      (by norm_num [scenarioRenderer])).2.2.2.2.1⟩

theorem updateBoid_x (p : Particle) (others : List Particle) (R cW sW aW : ℝ) :
    (p.updateBoidBehavior others R cW sW aW).x = p.x := by
  rw [Particle.updateBoidBehavior]
  split <;> rfl

theorem updateBoid_y (p : Particle) (others : List Particle) (R cW sW aW : ℝ) :
    (p.updateBoidBehavior others R cW sW aW).y = p.y := by
  rw [Particle.updateBoidBehavior]
  split <;> rfl

theorem updateBoid_targetX (p : Particle) (others : List Particle) (R cW sW aW : ℝ) :
    (p.updateBoidBehavior others R cW sW aW).targetX = p.targetX := by
  rw [Particle.updateBoidBehavior]
  split <;> rfl

theorem updateBoid_targetY (p : Particle) (others : List Particle) (R cW sW aW : ℝ) :
    (p.updateBoidBehavior others R cW sW aW).targetY = p.targetY := by
  rw [Particle.updateBoidBehavior]
  split <;> rfl

theorem updateBoid_radius (p : Particle) (others : List Particle) (R cW sW aW : ℝ) :
    (p.updateBoidBehavior others R cW sW aW).radius = p.radius := by
  rw [Particle.updateBoidBehavior]
  split <;> rfl

theorem updateBoid_color (p : Particle) (others : List Particle) (R cW sW aW : ℝ) :
    (p.updateBoidBehavior others R cW sW aW).color = p.color := by
  rw [Particle.updateBoidBehavior]
  split <;> rfl

theorem updateBoid_renderers (p : Particle) (others : List Particle) (R cW sW aW : ℝ) :
    (p.updateBoidBehavior others R cW sW aW).renderers = p.renderers := by
  rw [Particle.updateBoidBehavior]
  split <;> rfl

theorem updateBoid_no_neighbors (p : Particle) (others : List Particle)
    (R cW sW aW : ℝ)
    (h : ∀ q ∈ others,
      ¬ Real.sqrt ((q.x - p.x) * (q.x - p.x) + (q.y - p.y) * (q.y - p.y)) < R) :
    p.updateBoidBehavior others R cW sW aW = p := by
  rw [Particle.updateBoidBehavior]
  have hnil : others.filter (fun q =>
      decide (Real.sqrt ((q.x - p.x) * (q.x - p.x) + (q.y - p.y) * (q.y - p.y)) <
        R)) = [] := by
    rw [List.filter_eq_nil_iff]
    intro q hq
    simpa using h q hq
  rw [hnil]
  rfl

theorem update_targetX (p : Particle) (W H : ℝ) :
    (p.update W H).targetX = p.targetX := rfl

theorem update_targetY (p : Particle) (W H : ℝ) :
    (p.update W H).targetY = p.targetY := rfl

theorem update_speed (p : Particle) (W H : ℝ) :
    (p.update W H).speed = p.speedAfter := rfl

theorem update_x (p : Particle) (W H : ℝ) :
    (p.update W H).x = (bounceX (p.steer).1 p.xMoved p.radius W).2 := rfl

theorem update_y (p : Particle) (W H : ℝ) :
    (p.update W H).y =
      (bounceY (bounceX (p.steer).1 p.xMoved p.radius W).1 p.yMoved p.radius H).2 :=
  rfl

theorem update_renderers (p : Particle) (W H : ℝ) :
    (p.update W H).renderers = ageRenderers p.renderers ++
      [⟨0.4, p.radius, (p.update W H).x, (p.update W H).y, p.color⟩] := rfl

theorem bounceX_bounds (rot x rad W : ℝ) (hW : 2 * rad ≤ W) :
    rad ≤ (bounceX rot x rad W).2 ∧ (bounceX rot x rad W).2 ≤ W - rad := by
  rw [bounceX]
  split
  · refine ⟨le_max_left _ _, max_le (by linarith) (min_le_right _ _)⟩
  · next h =>
      push_neg at h
      exact ⟨by linarith [h.1], by linarith [h.2]⟩

theorem bounceY_bounds (rot y rad H : ℝ) (hH : 2 * rad ≤ H) :
    rad ≤ (bounceY rot y rad H).2 ∧ (bounceY rot y rad H).2 ≤ H - rad := by
  rw [bounceY]
  split
  · refine ⟨le_max_left _ _, max_le (by linarith) (min_le_right _ _)⟩
  · next h =>
      push_neg at h
      exact ⟨by linarith [h.1], by linarith [h.2]⟩

/-- Claim C1: after `Particle.update` the position lies in
`[radius, W - radius] × [radius, H - radius]`; a crossing of an edge
reflects the heading across that edge's axis (`π - rotation` for
x-edges, `-rotation` for y-edges) and clamps the position — the
position is clamped (never wrapped) and `update` is a total function on
particles (none is ever destroyed). -/
theorem boundary_containment (p : Particle) (W H : ℝ) (hr : 0 < p.radius)
    (hW : 2 * p.radius ≤ W) (hH : 2 * p.radius ≤ H) :
    (p.radius ≤ (p.update W H).x ∧ (p.update W H).x ≤ W - p.radius) ∧
    (p.radius ≤ (p.update W H).y ∧ (p.update W H).y ≤ H - p.radius) ∧
    (∀ rot x rad W', x - rad < 0 ∨ x + rad > W' →
      bounceX rot x rad W' = (Real.pi - rot, max rad (min x (W' - rad)))) ∧
    (∀ rot y rad H', y - rad < 0 ∨ y + rad > H' →
      bounceY rot y rad H' = (-rot, max rad (min y (H' - rad)))) ∧
    (∀ rot x rad W', ¬ (x - rad < 0 ∨ x + rad > W') →
      bounceX rot x rad W' = (rot, x)) ∧
    (∀ rot y rad H', ¬ (y - rad < 0 ∨ y + rad > H') →
      bounceY rot y rad H' = (rot, y)) := by
  refine ⟨?_, ?_, ?_, ?_, ?_, ?_⟩
  · rw [update_x]
    exact bounceX_bounds _ _ _ _ hW
  · rw [update_y]
    exact bounceY_bounds _ _ _ _ hH
  · intro rot x rad W' hcross
    rw [bounceX, if_pos hcross]
  · intro rot y rad H' hcross
    rw [bounceY, if_pos hcross]
  · intro rot x rad W' hin
    rw [bounceX, if_neg hin]
  · intro rot y rad H' hin
    rw [bounceY, if_neg hin]

/-- Witness for C1 at a concrete particle on a 100 × 100 canvas. -/
theorem boundary_containment_witness :
    (0:ℝ) < pEx.radius ∧ 2 * pEx.radius ≤ 100 ∧
      pEx.radius ≤ (pEx.update 100 100).x ∧ (pEx.update 100 100).x ≤ 100 - pEx.radius :=
  ⟨by norm_num [pEx], by norm_num [pEx],
    (boundary_containment pEx 100 100 (by norm_num [pEx]) (by norm_num [pEx])
      (by norm_num [pEx])).1.1,
    (boundary_containment pEx 100 100 (by norm_num [pEx]) (by norm_num [pEx])
      (by norm_num [pEx])).1.2⟩

/-- Claim C2: the speed stored by `Particle.update` is
`min(maxSpeed, max(minSpeed, speed * friction))` applied to the
post-steering speed (which includes any increment `updateBoidBehavior`
accumulated into `speed` earlier in the tick), hence it lies in
`[minSpeed, maxSpeed]` whenever `minSpeed ≤ maxSpeed`. -/
theorem speed_clamp (p : Particle) (W H : ℝ) (h : p.minSpeed ≤ p.maxSpeed) :
    p.minSpeed ≤ (p.update W H).speed ∧ (p.update W H).speed ≤ p.maxSpeed ∧
    (p.update W H).speed =
      min p.maxSpeed (max p.minSpeed ((p.steer).2 * p.friction)) := by
  refine ⟨?_, ?_, rfl⟩
  · rw [update_speed, Particle.speedAfter]
    exact le_min h (le_max_left _ _)
  · rw [update_speed, Particle.speedAfter]
    exact min_le_left _ _

/-- Witness for C2 at a concrete particle. -/
theorem speed_clamp_witness :
    pEx.minSpeed ≤ pEx.maxSpeed ∧
      pEx.minSpeed ≤ (pEx.update 100 100).speed ∧
      (pEx.update 100 100).speed ≤ pEx.maxSpeed :=
  ⟨by norm_num [pEx],
    (speed_clamp pEx 100 100 (by norm_num [pEx])).1,
    (speed_clamp pEx 100 100 (by norm_num [pEx])).2.1⟩

/-- Claim C10: `updateBoidBehavior` can change only `rotation` and
`speed` — position, target, radius, color and the renderer list are
returned unchanged — and when no other particle of the pool lies
strictly within the neighbourhood radius the whole particle is returned
unchanged (the early return on an empty neighbour set). -/
theorem boid_frame_spec (p : Particle) (others : List Particle)
    (R cW sW aW : ℝ) :
    (p.updateBoidBehavior others R cW sW aW).x = p.x ∧
    (p.updateBoidBehavior others R cW sW aW).y = p.y ∧
    (p.updateBoidBehavior others R cW sW aW).targetX = p.targetX ∧
    (p.updateBoidBehavior others R cW sW aW).targetY = p.targetY ∧
    (p.updateBoidBehavior others R cW sW aW).radius = p.radius ∧
    (p.updateBoidBehavior others R cW sW aW).color = p.color ∧
    (p.updateBoidBehavior others R cW sW aW).renderers = p.renderers ∧
    ((∀ q ∈ others,
        ¬ Real.sqrt ((q.x - p.x) * (q.x - p.x) + (q.y - p.y) * (q.y - p.y)) < R) →
      p.updateBoidBehavior others R cW sW aW = p) :=
  ⟨updateBoid_x p others R cW sW aW, updateBoid_y p others R cW sW aW,
    updateBoid_targetX p others R cW sW aW, updateBoid_targetY p others R cW sW aW,
    updateBoid_radius p others R cW sW aW, updateBoid_color p others R cW sW aW,
    updateBoid_renderers p others R cW sW aW,
    fun h => updateBoid_no_neighbors p others R cW sW aW h⟩

/-- Witness for C10: an empty pool trivially has no neighbour in range,
so the particle is returned unchanged. -/
theorem boid_frame_spec_witness :
    pEx.updateBoidBehavior [] 50 0.1 0.25 0.05 = pEx :=
  (boid_frame_spec pEx [] 50 0.1 0.25 0.05).2.2.2.2.2.2.2 (by simp)

theorem aged_mem_pos {rs : List ParticleRenderer} {r : ParticleRenderer}
    (h : r ∈ ageRenderers rs) : 0 < r.opacity ∧ 0 < r.radius := by
  rw [ageRenderers_eq_map_filter] at h
  have := (List.mem_filter.mp h).2
  rw [Bool.and_eq_true, decide_eq_true_eq, decide_eq_true_eq] at this
  exact this

/-- Claim C5: `Particle.update` ticks every existing trail renderer
once, keeps exactly the ones whose `update` returned `true` in their
original relative order, and appends one fresh renderer at the
particle's new position with opacity 0.4 and the particle's radius and
color.  Under the decay-profile invariant (`RenderInv`, which holds for
the empty list a particle starts with and is itself preserved), every
renderer of the resulting list has positive opacity and radius and the
list never grows beyond 0.4 / 0.02 = 20 entries. -/
theorem trail_emission_spec (p : Particle) (W H : ℝ) (hr : 0 < p.radius)
    (hinv : RenderInv p.renderers) :
    (p.update W H).renderers =
      (p.renderers.map rNext).filter
        (fun r => decide (0 < r.opacity) && decide (0 < r.radius)) ++
      [⟨0.4, p.radius, (p.update W H).x, (p.update W H).y, p.color⟩] ∧
    (∀ r ∈ (p.update W H).renderers, 0 < r.opacity ∧ 0 < r.radius) ∧
    RenderInv (p.update W H).renderers ∧
    (p.update W H).renderers.length ≤ 20 := by
  have hshape := update_renderers p W H
  have hpos : ∀ r ∈ (p.update W H).renderers, 0 < r.opacity ∧ 0 < r.radius := by
    intro r hrm
    rw [hshape, List.mem_append] at hrm
    rcases hrm with hrm | hrm
    · exact aged_mem_pos hrm
    · rcases List.mem_singleton.mp hrm with rfl
      exact ⟨by norm_num, hr⟩
  have hrev : ((p.update W H).renderers).reverse =
      (⟨0.4, p.radius, (p.update W H).x, (p.update W H).y, p.color⟩ :
        ParticleRenderer) :: (ageRenderers p.renderers).reverse := by
    rw [hshape, List.reverse_append]
    simp
  have hinv' : RenderInv (p.update W H).renderers := by
    rw [RenderInv, hrev]
    refine ⟨by norm_num, ?_⟩
    rw [ageRenderers_eq_filterMap, ← List.filterMap_reverse]
    exact profAux_step hinv
  refine ⟨by rw [hshape, ageRenderers_eq_map_filter], hpos, hinv', ?_⟩
  rcases profAux_length hinv' (fun r hrm => (hpos r (List.mem_reverse.mp hrm)).1)
    with hlen | hnil
  · rw [List.length_reverse] at hlen
    omega
  · rw [← List.length_reverse, hnil]
    norm_num

/-- Witness for C5 at a concrete particle with an empty renderer list. -/
theorem trail_emission_spec_witness :
    (0:ℝ) < pEx.radius ∧ RenderInv pEx.renderers ∧
      (pEx.update 100 100).renderers.length ≤ 20 :=
  ⟨by norm_num [pEx], trivial,
    (trail_emission_spec pEx 100 100 (by norm_num [pEx]) trivial).2.2.2⟩

theorem normAngle_zero : normAngle 0 = 0 := by
  have hpi := Real.pi_pos
  have hdiv : Real.pi / (2 * Real.pi) = 1 / 2 := by
    rw [div_eq_iff (by positivity)]
    ring
  have hfl : ⌊(1/2 : ℝ)⌋ = 0 := by
    rw [Int.floor_eq_zero_iff]
    constructor <;> norm_num
  rw [normAngle, jsMod, if_pos (by linarith : (0:ℝ) ≤ 0 + Real.pi), zero_add,
    hdiv, hfl]
  push_cast
  ring

/-- Claim C8 (amended): a particle's heading is in `(-π, π]` at
construction — it is `atan2(targetY - y, targetX - x)`, whose range is
exactly that interval — but the mutations of `rotation` performed by
`update` and `updateBoidBehavior` (steering blend, boid blend, boundary
reflection) never re-wrap it into `(-π, π]`; a boundary reflection can
leave the interval. -/
theorem construct_rotation_range (x y tx ty : ℝ) (c : String)
    (acc ms mns f r rand : ℝ) :
    (Particle.construct x y tx ty c acc ms mns f r rand).rotation ∈
      Set.Ioc (-Real.pi) Real.pi :=
  atan2_mem_Ioc _ _

theorem pC8_rotation : pC8.rotation = -(Real.pi / 2) := by
  show atan2 ((40:ℝ) - 50) ((1:ℝ) - 1) = -(Real.pi / 2)
  norm_num
  exact atan2_neg_zero (by norm_num)

theorem pC8_steer : pC8.steer = (-(Real.pi / 2), 2.5) := by
  have h1 : pC8.steer =
      (pC8.rotation + normAngle (atan2 ((40:ℝ) - 50) ((1:ℝ) - 1) - pC8.rotation) * 0.05,
        pC8.speed +
          (Real.sqrt (((1:ℝ) - 1) * ((1:ℝ) - 1) + ((40:ℝ) - 50) * ((40:ℝ) - 50)) * 0.5 -
            pC8.speed) * 0.5) := rfl
  rw [h1, pC8_rotation]
  have h2 : atan2 ((40:ℝ) - 50) ((1:ℝ) - 1) = -(Real.pi / 2) := by
    norm_num
    exact atan2_neg_zero (by norm_num)
  have h3 : Real.sqrt (((1:ℝ) - 1) * ((1:ℝ) - 1) + ((40:ℝ) - 50) * ((40:ℝ) - 50)) = 10 := by
    norm_num
    rw [show (100:ℝ) = 10 ^ 2 by norm_num, Real.sqrt_sq (by norm_num)]
  have h4 : pC8.speed = 0 := by norm_num [pC8, Particle.construct]
  rw [h2, h3, h4]
  norm_num [normAngle_zero]

theorem update_rotation (p : Particle) (W H : ℝ) :
    (p.update W H).rotation =
      (bounceY (bounceX (p.steer).1 p.xMoved p.radius W).1 p.yMoved p.radius H).1 :=
  rfl

theorem pC8_speedAfter : pC8.speedAfter = 2 := by
  rw [Particle.speedAfter, pC8_steer]
  have h1 : pC8.maxSpeed = 2 := rfl
  have h2 : pC8.minSpeed = 1 := rfl
  have h3 : pC8.friction = 0.99 := rfl
  rw [h1, h2, h3]
  have h4 : ((-(Real.pi / 2), (2.5:ℝ)).2 : ℝ) * 0.99 = 2.475 := by norm_num
  rw [h4, max_eq_right (by norm_num), min_eq_left (by norm_num)]

theorem pC8_xMoved : pC8.xMoved = 1 := by
  rw [Particle.xMoved, pC8_speedAfter, pC8_steer]
  have h1 : pC8.x = 1 := rfl
  have h2 : ((-(Real.pi / 2), (2.5:ℝ)).1 : ℝ) = -(Real.pi / 2) := rfl
  rw [h1, h2, Real.cos_neg, Real.cos_pi_div_two]
  norm_num

theorem pC8_yMoved : pC8.yMoved = 48 := by
  rw [Particle.yMoved, pC8_speedAfter, pC8_steer]
  have h1 : pC8.y = 50 := rfl
  have h2 : ((-(Real.pi / 2), (2.5:ℝ)).1 : ℝ) = -(Real.pi / 2) := rfl
  rw [h1, h2, Real.sin_neg, Real.sin_pi_div_two]
  norm_num

/-- Claim C8, counterexample: the reachable particle `pC8` (constructed,
then updated once on a 100 × 100 canvas) bounces off the left border and
ends the tick with heading `3π/2`, outside `(-π, π]` — the boundary
reflection `rotation := π - rotation` is not re-wrapped. -/
theorem heading_wrap_cex :
    (pC8.update 100 100).rotation = 3 * Real.pi / 2 ∧
      (pC8.update 100 100).rotation ∉ Set.Ioc (-Real.pi) Real.pi := by
  have hrot : (pC8.update 100 100).rotation = 3 * Real.pi / 2 := by
    rw [update_rotation, pC8_steer, pC8_xMoved, pC8_yMoved]
    have hrad : pC8.radius = 3 := rfl
    rw [hrad]
    have h2 : ((-(Real.pi / 2), (2.5:ℝ)).1 : ℝ) = -(Real.pi / 2) := rfl
    rw [h2, bounceX, if_pos (Or.inl (by norm_num : (1:ℝ) - 3 < 0))]
    have hby : ¬ ((48:ℝ) - 3 < 0 ∨ (48:ℝ) + 3 > 100) := by
      push_neg
      norm_num
    rw [bounceY, if_neg hby]
    show Real.pi - -(Real.pi / 2) = 3 * Real.pi / 2
    ring
  refine ⟨hrot, ?_⟩
  rw [hrot]
  intro hmem
  have := hmem.2
  nlinarith [Real.pi_pos]

/-- Claim C9: with the particle exactly on its target (distance 0) no
division by the zero distance happens anywhere.  In the heading/speed
variant the steering block performs no division at all: the desired
speed is `0 * acceleration = 0` and the desired heading is
`atan2(0, 0) = 0`.  In the velocity-component variant the divisor
`(distance || 1)` evaluates to 1 and the direction is the zero vector.
In `updateBoidBehavior` the separation term of a coincident neighbour is
skipped by the `distance > 0` guard and contributes the zero vector. -/
theorem div_by_zero_guards (p : Particle) (v : VParticle) (q : Particle)
    (R : ℝ)
    (hpX : p.targetX = some p.x) (hpY : p.targetY = some p.y)
    (hvX : v.targetX = some v.x) (hvY : v.targetY = some v.y)
    (hqx : q.x = p.x) (hqy : q.y = p.y) :
    p.steer = (p.rotation + normAngle (atan2 0 0 - p.rotation) * 0.05,
      p.speed + (0 * p.acceleration - p.speed) * p.acceleration) ∧
    atan2 0 0 = 0 ∧
    (if v.vdist = 0 then (1:ℝ) else v.vdist) = 1 ∧
    v.vdir = (0, 0) ∧
    sepTerm p q R = (0, 0) := by
  have hvdx : v.targetDx = 0 := by
    rw [VParticle.targetDx, hvX]
    ring
  have hvdy : v.targetDy = 0 := by
    rw [VParticle.targetDy, hvY]
    ring
  have hvdist : v.vdist = 0 := by
    rw [VParticle.vdist, hvdx, hvdy]
    simp
  refine ⟨?_, atan2_zero_zero, ?_, ?_, ?_⟩
  · rw [Particle.steer]
    rw [hpX, hpY]
    have hx : p.x - p.x = 0 := sub_self _
    have hy : p.y - p.y = 0 := sub_self _
    simp [hx, hy]
  · rw [if_pos hvdist]
  · rw [VParticle.vdir, if_pos hvdist, hvdx, hvdy]
    norm_num
  · rw [sepTerm, hqx, hqy]
    have hz : p.x - p.x = 0 := by ring
    have hz2 : p.y - p.y = 0 := by ring
    rw [hz, hz2, show (0:ℝ) * 0 + 0 * 0 = 0 by ring, Real.sqrt_zero]
    rw [if_neg]
    intro hcon
    exact absurd hcon.1 (lt_irrefl 0)

/-- Witness for C9 at concrete particles whose targets coincide with
their positions (and a coincident neighbour). -/
theorem div_by_zero_guards_witness :
    pOnTarget.targetX = some pOnTarget.x ∧ pOnTarget.targetY = some pOnTarget.y ∧
    vEx.targetX = some vEx.x ∧ vEx.targetY = some vEx.y ∧
    pEx.x = pOnTarget.x ∧ pEx.y = pOnTarget.y ∧
    vEx.vdir = (0, 0) ∧ sepTerm pOnTarget pEx 50 = (0, 0) :=
  ⟨rfl, rfl, rfl, rfl, rfl, rfl,
    (div_by_zero_guards pOnTarget vEx pEx 50 rfl rfl rfl rfl rfl rfl).2.2.2.1,
    (div_by_zero_guards pOnTarget vEx pEx 50 rfl rfl rfl rfl rfl rfl).2.2.2.2⟩

theorem stepAt_target_aux (W H : ℝ) (tX tY : Option ℝ) (R cW sW aW : ℝ) :
    ∀ (is : List ℕ) (pool : List Particle),
      (∀ (j : ℕ) (p_ : Particle), pool[j]? = some p_ →
        j ∈ is ∨ (p_.targetX = tX ∧ p_.targetY = tY)) →
      ∀ (j : ℕ) (p_ : Particle),
        (is.foldl (stepAt W H tX tY R cW sW aW) pool)[j]? = some p_ →
        p_.targetX = tX ∧ p_.targetY = tY := by
  intro is
  induction is with
  | nil =>
    intro pool h j p_ hj
    rw [List.foldl_nil] at hj
    rcases h j p_ hj with hmem | hT
    · exact absurd hmem (List.not_mem_nil _)
    · exact hT
  | cons i rest ih =>
    intro pool h j p_ hj
    rw [List.foldl_cons] at hj
    refine ih (stepAt W H tX tY R cW sW aW pool i) ?_ j p_ hj
    intro j' p' hj'
    rcases hp : pool[i]? with _ | p
    · rw [stepAt, hp] at hj'
      rcases h j' p' hj' with hmem | hT
      · rcases List.mem_cons.mp hmem with rfl | hmem'
        · rw [hp] at hj'
          exact absurd hj' (by simp)
        · exact Or.inl hmem'
      · exact Or.inr hT
    · rw [stepAt, hp] at hj'
      by_cases hij : j' = i
      · subst hij
        have hlen : j' < pool.length := (List.getElem?_eq_some_iff.mp hp).1
        rw [List.getElem?_set_self (by simpa using hlen)] at hj'
        have hp3 := (Option.some.injEq _ _).mp hj'
        refine Or.inr ?_
        rw [← hp3]
        constructor
        · rw [update_targetX, updateBoid_targetX]
        · rw [update_targetY, updateBoid_targetY]
      · rw [List.getElem?_set_ne (fun he => hij he.symm)] at hj'
        rcases h j' p' hj' with hmem | hT
        · rcases List.mem_cons.mp hmem with rfl | hmem'
          · exact absurd rfl hij
          · exact Or.inl hmem'
        · exact Or.inr hT

theorem seqPool_targets (W H : ℝ) (tX tY : Option ℝ) (R cW sW aW : ℝ)
    (pool : List Particle) :
    ∀ q ∈ seqPool W H tX tY R cW sW aW pool,
      q.targetX = tX ∧ q.targetY = tY := by
  intro q hq
  obtain ⟨j, hj⟩ := List.mem_iff_getElem?.mp hq
  refine stepAt_target_aux W H tX tY R cW sW aW (List.range pool.length) pool
    ?_ j q hj
  intro j' p' hj'
  exact Or.inl (List.mem_range.mpr (List.getElem?_eq_some_iff.mp hj').1)

/-- Claim C7, counterexample: a `ParticleSystem` constructed with an
empty pool and target (1, 2), updated with the target arguments
omitted, keeps its stale stored target `some 1` instead of the claimed
`null` — the assignments to the stored target sit inside the
per-particle `forEach` body, which never runs on an empty pool. -/
theorem target_propagation_cex :
    (sysEmpty.update 100 100 none none).targetX = some 1 ∧
      (sysEmpty.update 100 100 none none).targetX ≠ none := by
  have hempty : sysEmpty.particles = [] := by
    simp [sysEmpty, ParticleSystem.construct]
  constructor
  · show (if sysEmpty.particles.isEmpty then sysEmpty.targetX else none) = some 1
    rw [hempty]
    rfl
  · show (if sysEmpty.particles.isEmpty then sysEmpty.targetX else none) ≠ none
    rw [hempty]
    simp [sysEmpty, ParticleSystem.construct]

/-- Claim C7 (amended): for every system whose pool is nonempty,
`update` overwrites the stored target with the supplied value (`none`
when omitted) and every particle of the resulting pool carries exactly
that target.  (With an empty pool the loop body never runs and the
previous stored target survives.) -/
theorem target_propagation_spec (sys : ParticleSystem) (W H : ℝ)
    (tX tY : Option ℝ) (h : sys.particles ≠ []) :
    (sys.update W H tX tY).targetX = tX ∧
    (sys.update W H tX tY).targetY = tY ∧
    ∀ q ∈ (sys.update W H tX tY).particles,
      q.targetX = tX ∧ q.targetY = tY := by
  have hne : sys.particles.isEmpty = false := List.isEmpty_eq_false.mpr h
  refine ⟨?_, ?_, ?_⟩
  · show (if sys.particles.isEmpty then sys.targetX else tX) = tX
    rw [hne]
    rfl
  · show (if sys.particles.isEmpty then sys.targetY else tY) = tY
    rw [hne]
    rfl
  · intro q hq
    exact seqPool_targets W H tX tY sys.neighborhoodRadius sys.cohesionWeight
      sys.separationWeight sys.alignmentWeight sys.particles q hq

/-- Witness for C7's amended theorem on a singleton system. -/
theorem target_propagation_spec_witness :
    sysOne.particles ≠ [] ∧
      (sysOne.update 100 100 (some 5) (some 6)).targetX = some 5 ∧
      (sysOne.update 100 100 (some 5) (some 6)).targetY = some 6 :=
  ⟨by simp [sysOne],
    (target_propagation_spec sysOne 100 100 (some 5) (some 6) (by simp [sysOne])).1,
    (target_propagation_spec sysOne 100 100 (some 5) (some 6) (by simp [sysOne])).2.1⟩

theorem sqrt_eval {a b : ℝ} (hb : 0 ≤ b) (h : a = b ^ 2) : Real.sqrt a = b := by
  rw [h, Real.sqrt_sq hb]

theorem steer_of_none (p : Particle) (h : p.targetX = none) :
    p.steer = (p.rotation, p.speed) := by
  rcases hY : p.targetY with _ | ty <;>
    simp [Particle.steer, h, hY]

theorem bounceX_in {rot x rad W : ℝ} (h : ¬ (x - rad < 0 ∨ x + rad > W)) :
    bounceX rot x rad W = (rot, x) := by
  rw [bounceX, if_neg h]

theorem bounceY_in {rot y rad H : ℝ} (h : ¬ (y - rad < 0 ∨ y + rad > H)) :
    bounceY rot y rad H = (rot, y) := by
  rw [bounceY, if_neg h]

theorem updateBoid_maxSpeed (p : Particle) (others : List Particle)
    (R cW sW aW : ℝ) :
    (p.updateBoidBehavior others R cW sW aW).maxSpeed = p.maxSpeed := by
  rw [Particle.updateBoidBehavior]
  split <;> rfl

theorem updateBoid_minSpeed (p : Particle) (others : List Particle)
    (R cW sW aW : ℝ) :
    (p.updateBoidBehavior others R cW sW aW).minSpeed = p.minSpeed := by
  rw [Particle.updateBoidBehavior]
  split <;> rfl

theorem updateBoid_friction (p : Particle) (others : List Particle)
    (R cW sW aW : ℝ) :
    (p.updateBoidBehavior others R cW sW aW).friction = p.friction := by
  rw [Particle.updateBoidBehavior]
  split <;> rfl

theorem exP0_speedAfter : exP0.speedAfter = 2 := by
  have h1 : exP0.steer = ((0:ℝ), (5:ℝ)) := rfl
  rw [Particle.speedAfter, h1]
  show min (2:ℝ) (max 1 (5 * 0.99)) = 2
  rw [show (5:ℝ) * 0.99 = 4.95 by norm_num,
    max_eq_right (by norm_num), min_eq_left (by norm_num)]

theorem exP0_xMoved : exP0.xMoved = 12 := by
  have h1 : exP0.steer = ((0:ℝ), (5:ℝ)) := rfl
  rw [Particle.xMoved, exP0_speedAfter, h1]
  show (10:ℝ) + 2 * Real.cos 0 = 12
  rw [Real.cos_zero]
  norm_num

theorem exP0_yMoved : exP0.yMoved = 10 := by
  have h1 : exP0.steer = ((0:ℝ), (5:ℝ)) := rfl
  rw [Particle.yMoved, exP0_speedAfter, h1]
  show (10:ℝ) + 2 * Real.sin 0 = 10
  rw [Real.sin_zero]
  norm_num

theorem exP0u_x : (exP0.update 1000 1000).x = 12 := by
  have h1 : exP0.steer = ((0:ℝ), (5:ℝ)) := rfl
  rw [update_x, h1, exP0_xMoved]
  show (bounceX 0 12 exP0.radius 1000).2 = 12
  rw [show exP0.radius = (3:ℝ) from rfl,
    bounceX_in (by push_neg; constructor <;> norm_num)]

theorem exP0u_rotX :
    (bounceX (exP0.steer).1 exP0.xMoved exP0.radius 1000).1 = 0 := by
  have h1 : exP0.steer = ((0:ℝ), (5:ℝ)) := rfl
  rw [h1, exP0_xMoved]
  show (bounceX 0 12 exP0.radius 1000).1 = 0
  rw [show exP0.radius = (3:ℝ) from rfl,
    bounceX_in (by push_neg; constructor <;> norm_num)]

theorem exP0u_y : (exP0.update 1000 1000).y = 10 := by
  rw [update_y, exP0u_rotX, exP0_yMoved]
  show (bounceY 0 10 exP0.radius 1000).2 = 10
  rw [show exP0.radius = (3:ℝ) from rfl,
    bounceY_in (by push_neg; constructor <;> norm_num)]

theorem exP0u_rotation : (exP0.update 1000 1000).rotation = 0 := by
  rw [update_rotation, exP0u_rotX, exP0_yMoved]
  show (bounceY 0 10 exP0.radius 1000).1 = 0
  rw [show exP0.radius = (3:ℝ) from rfl,
    bounceY_in (by push_neg; constructor <;> norm_num)]

theorem exP0u_speed : (exP0.update 1000 1000).speed = 2 := by
  rw [update_speed, exP0_speedAfter]

theorem exP1_x : exP1.x = 61 := rfl

theorem exP1_y : exP1.y = 10 := rfl

theorem exP1_rotation : exP1.rotation = 0 := rfl

theorem exP1_speed : exP1.speed = 2 := rfl

theorem seqStep0 :
    stepAt 1000 1000 none none 50 0.1 0.25 0.05 [exP0, exP1] 0 =
      [exP0.update 1000 1000, exP1] := by
  have hnb : ∀ q ∈ [exP1],
      ¬ Real.sqrt ((q.x - exP0.x) * (q.x - exP0.x) +
        (q.y - exP0.y) * (q.y - exP0.y)) < 50 := by
    intro q hq
    rcases List.mem_singleton.mp hq with rfl
    show ¬ Real.sqrt (((61:ℝ) - 10) * ((61:ℝ) - 10) +
      ((10:ℝ) - 10) * ((10:ℝ) - 10)) < 50
    rw [sqrt_eval (by norm_num : (0:ℝ) ≤ 51) (by norm_num)]
    norm_num
  rw [stepAt]
  simp only [List.getElem?_cons_zero]
  show [exP0, exP1].set 0
      ((exP0.updateBoidBehavior [exP1] 50 0.1 0.25 0.05).update 1000 1000) =
    [exP0.update 1000 1000, exP1]
  rw [updateBoid_no_neighbors _ _ _ _ _ _ hnb]
  rfl

theorem seqStep1 :
    stepAt 1000 1000 none none 50 0.1 0.25 0.05 [exP0.update 1000 1000, exP1] 1 =
      [exP0.update 1000 1000,
        ((exP1.updateBoidBehavior [exP0.update 1000 1000] 50 0.1 0.25 0.05).update
          1000 1000)] := by
  rw [stepAt]
  simp only [List.getElem?_cons_succ, List.getElem?_cons_zero]
  rfl

theorem seqPool_eval :
    seqPool 1000 1000 none none 50 0.1 0.25 0.05 [exP0, exP1] =
      [exP0.update 1000 1000,
        ((exP1.updateBoidBehavior [exP0.update 1000 1000] 50 0.1 0.25 0.05).update
          1000 1000)] := by
  rw [seqPool]
  show List.foldl (stepAt 1000 1000 none none 50 0.1 0.25 0.05)
    [exP0, exP1] [0, 1] = _
  rw [List.foldl_cons, List.foldl_cons, List.foldl_nil, seqStep0, seqStep1]

theorem sepTerm_exP1 : sepTerm exP1 (exP0.update 1000 1000) 50 = (0, 0) := by
  simp only [sepTerm]
  rw [exP1_x, exP1_y, exP0u_x, exP0u_y]
  rw [show ((61:ℝ) - 12) * ((61:ℝ) - 12) + ((10:ℝ) - 10) * ((10:ℝ) - 10) = 49 ^ 2
      by norm_num,
    Real.sqrt_sq (by norm_num : (0:ℝ) ≤ 49)]
  rw [if_neg]
  intro hcon
  have := hcon.2
  norm_num at this

theorem boid1_speed :
    (exP1.updateBoidBehavior [exP0.update 1000 1000] 50 0.1 0.25 0.05).speed =
      2.49 := by
  have hb : decide (Real.sqrt
      (((exP0.update 1000 1000).x - exP1.x) * ((exP0.update 1000 1000).x - exP1.x) +
        ((exP0.update 1000 1000).y - exP1.y) * ((exP0.update 1000 1000).y - exP1.y)) <
      50) = true := by
    rw [exP0u_x, exP0u_y, exP1_x, exP1_y]
    rw [show ((12:ℝ) - 61) * ((12:ℝ) - 61) + ((10:ℝ) - 10) * ((10:ℝ) - 10) = 49 ^ 2
        by norm_num,
      Real.sqrt_sq (by norm_num : (0:ℝ) ≤ 49)]
    exact decide_eq_true (by norm_num)
  have hfil : List.filter (fun q =>
      decide (Real.sqrt ((q.x - exP1.x) * (q.x - exP1.x) +
        (q.y - exP1.y) * (q.y - exP1.y)) < 50)) [exP0.update 1000 1000] =
      [exP0.update 1000 1000] := by
    simp [hb]
  rw [Particle.updateBoidBehavior, hfil]
  rw [if_neg (by simp : ¬ ([exP0.update 1000 1000].length = 0))]
  dsimp only
  simp only [List.map_cons, List.map_nil, List.sum_cons, List.sum_nil,
    List.length_cons, List.length_nil, Nat.cast_one]
  rw [sepTerm_exP1, exP0u_x, exP0u_y, exP0u_rotation, exP0u_speed, exP1_x, exP1_y,
    exP1_rotation, exP1_speed, Real.cos_zero, Real.sin_zero]
  norm_num
  rw [sqrt_eval (by norm_num : (0:ℝ) ≤ 49) (by norm_num : (2401:ℝ) = 49 ^ 2),
    sqrt_eval (by norm_num : (0:ℝ) ≤ 10) (by norm_num : (100:ℝ) = 10 ^ 2)]
  norm_num

theorem seq1_speed :
    ((exP1.updateBoidBehavior [exP0.update 1000 1000] 50 0.1 0.25 0.05).update
      1000 1000).speed = 2 := by
  rw [update_speed, Particle.speedAfter]
  rw [steer_of_none _ (by rw [updateBoid_targetX]; rfl)]
  rw [updateBoid_maxSpeed, updateBoid_minSpeed, updateBoid_friction]
  show min exP1.maxSpeed (max exP1.minSpeed
    ((exP1.updateBoidBehavior [exP0.update 1000 1000] 50 0.1 0.25 0.05).speed *
      exP1.friction)) = 2
  rw [boid1_speed]
  show min (2:ℝ) (max 1 (2.49 * 0.99)) = 2
  rw [show (2.49:ℝ) * 0.99 = 2.4651 by norm_num,
    max_eq_right (by norm_num), min_eq_left (by norm_num)]

theorem exP1u_speed : (exP1.update 1000 1000).speed = 1.98 := by
  rw [update_speed, Particle.speedAfter]
  have hst : exP1.steer = ((0:ℝ), (2:ℝ)) := rfl
  rw [hst]
  show min (2:ℝ) (max 1 (2 * 0.99)) = 1.98
  rw [show (2:ℝ) * 0.99 = 1.98 by norm_num,
    max_eq_right (by norm_num), min_eq_right (by norm_num)]

theorem snapshotPool_eval :
    snapshotPool 1000 1000 none none 50 0.1 0.25 0.05 [exP0, exP1] =
      [exP0.update 1000 1000, exP1.update 1000 1000] := by
  have hnb0 : ∀ q ∈ [exP1],
      ¬ Real.sqrt ((q.x - exP0.x) * (q.x - exP0.x) +
        (q.y - exP0.y) * (q.y - exP0.y)) < 50 := by
    intro q hq
    rcases List.mem_singleton.mp hq with rfl
    show ¬ Real.sqrt (((61:ℝ) - 10) * ((61:ℝ) - 10) +
      ((10:ℝ) - 10) * ((10:ℝ) - 10)) < 50
    rw [sqrt_eval (by norm_num : (0:ℝ) ≤ 51) (by norm_num)]
    norm_num
  have hnb1 : ∀ q ∈ [exP0],
      ¬ Real.sqrt ((q.x - exP1.x) * (q.x - exP1.x) +
        (q.y - exP1.y) * (q.y - exP1.y)) < 50 := by
    intro q hq
    rcases List.mem_singleton.mp hq with rfl
    show ¬ Real.sqrt (((10:ℝ) - 61) * ((10:ℝ) - 61) +
      ((10:ℝ) - 10) * ((10:ℝ) - 10)) < 50
    rw [sqrt_eval (by norm_num : (0:ℝ) ≤ 51) (by norm_num)]
    norm_num
  rw [snapshotPool]
  show List.filterMap _ [0, 1] = _
  rw [List.filterMap_cons, List.filterMap_cons, List.filterMap_nil]
  simp only [List.getElem?_cons_zero, List.getElem?_cons_succ, Option.map_some']
  show [((exP0.updateBoidBehavior [exP1] 50 0.1 0.25 0.05).update 1000 1000),
    ((exP1.updateBoidBehavior [exP0] 50 0.1 0.25 0.05).update 1000 1000)] = _
  rw [updateBoid_no_neighbors _ _ _ _ _ _ hnb0,
    updateBoid_no_neighbors _ _ _ _ _ _ hnb1]

/-- Claim C3, counterexample: on the two-particle pool `[exP0, exP1]`
(no target, canvas 1000 × 1000, the source's boid parameters) the
sequential in-place loop of `ParticleSystem.update` and the snapshot
reference disagree: sequentially, particle 0 first moves from x = 10 to
x = 12, which brings it within the neighbourhood radius of particle 1
(distance 49 < 50), so particle 1 gains flocking speed and ends the tick
with speed 2; under the snapshot semantics particle 1 sees particle 0 at
distance 51, has no neighbours, and ends with speed 1.98. -/
theorem simultaneous_update_cex :
    seqPool 1000 1000 none none 50 0.1 0.25 0.05 [exP0, exP1] ≠
      snapshotPool 1000 1000 none none 50 0.1 0.25 0.05 [exP0, exP1] := by
  intro h
  have hseq : ((seqPool 1000 1000 none none 50 0.1 0.25 0.05
      [exP0, exP1])[1]?).map Particle.speed = some 2 := by
    rw [seqPool_eval]
    simp only [List.getElem?_cons_succ, List.getElem?_cons_zero, Option.map_some']
    rw [seq1_speed]
  have hsnap : ((snapshotPool 1000 1000 none none 50 0.1 0.25 0.05
      [exP0, exP1])[1]?).map Particle.speed = some 1.98 := by
    rw [snapshotPool_eval]
    simp only [List.getElem?_cons_succ, List.getElem?_cons_zero, Option.map_some']
    rw [exP1u_speed]
  rw [h, hsnap] at hseq
  norm_num at hseq

/-- Claim C3 (amended): `ParticleSystem.update` is an in-place
sequential loop — each particle's flocking forces read pool members of
smaller index at their already-updated current-tick states — so it is
not extensionally equal to the snapshot reference; the two coincide only
in degenerate cases such as pools with at most one particle, proved
here for every singleton pool. -/
theorem sequential_singleton_agrees (W H : ℝ) (tX tY : Option ℝ)
    (R cW sW aW : ℝ) (p : Particle) :
    seqPool W H tX tY R cW sW aW [p] = snapshotPool W H tX tY R cW sW aW [p] :=
  rfl
